import Mathlib

/-!
# Verification of the `dirtree` directory-listing library

This file gives a shallow embedding, in Lean 4, of the core of the
`dirtree` Go library (traversal of a directory tree, per-entry
formatting, glob-based match/ignore filtering, depth limiting, option
resolution), together with theorems settling the specification claims
about it.

Modelling conventions:
* Go strings are modelled by Lean `String` / `List Char` (one `Char`
  per rune; all relevant inputs are ASCII, where Go's byte-wise
  operations and rune-wise operations agree).
* Machine integers (`int`, `int64`) are modelled by `Int`; the bit-set
  types (`PrintMode uint32`, `fs.FileMode uint32`, `FileType byte`)
  are modelled by `Nat` used as bit vectors through `&&&`/`|||`.
* The platform is Unix-like: `os.PathSeparator = '/'`, and
  `filepath.ToSlash` is the identity.
* Filesystem effects are made explicit: a node of the modelled tree
  carries the data the Go code would obtain from the filesystem
  (`dirent.Type()` bits, `Stat` size or stat failure, and the outcome
  of opening/reading the file's content).
-/

namespace Dirtree

/-! ## File types (`mode.go`)

`FileType` is the three-valued classification of an entry.  In Go it
is a bit-set byte (`File = 1`, `Dir = 2`, `Other = 4`) whose values
are also used as the classification of a single entry; we model the
classification as an inductive and expose the bit through
`FileType.bit`. -/

inductive FileType where
  | File
  | Dir
  | Other
deriving DecidableEq, Repr

/-- `FileType.char`: the printable char corresponding to a file type
(`mode.go`, `func (ft FileType) char() byte`). -/
def FileType.char : FileType → Char
  | .Dir => 'd'
  | .File => 'f'
  | .Other => '?'

/-- The bit each `FileType` constant carries in Go
(`File = 1 << 0`, `Dir = 1 << 1`, `Other = 1 << 2`). -/
def FileType.bit : FileType → Nat
  | .File => 1
  | .Dir => 2
  | .Other => 4

/-! ## `fs.FileMode` bits (Go standard library)

Only the bits used by `dirtree` are named.  `fsModeType` is Go's
`fs.ModeType` mask (the union of all file-type bits). -/

def fsModeDir : Nat := 2 ^ 31
def fsModeSymlink : Nat := 2 ^ 27
def fsModeDevice : Nat := 2 ^ 26
def fsModeNamedPipe : Nat := 2 ^ 25
def fsModeSocket : Nat := 2 ^ 24
def fsModeCharDevice : Nat := 2 ^ 21
def fsModeIrregular : Nat := 2 ^ 19

def fsModeType : Nat :=
  fsModeDir ||| fsModeSymlink ||| fsModeNamedPipe ||| fsModeSocket |||
  fsModeDevice ||| fsModeCharDevice ||| fsModeIrregular

/-- Go `m.IsRegular()`: no type bit is set. -/
def fsModeIsRegular (m : Nat) : Bool := m &&& fsModeType = 0

/-- Go `m.Type()`: the type bits of a mode. -/
def fsModeTypeOf (m : Nat) : Nat := m &&& fsModeType

/-- `filetypeFromDirEntry` (`mode.go`): classifies a directory entry
from `typ := dirent.Type()` — the *unresolved* (lstat-style, symlinks
not followed) type bits of the entry.  Regular files map to `File`,
entries whose type bits are exactly `fs.ModeDir` map to `Dir`, and
everything else maps to `Other`. -/
def filetypeFromDirEntry (typ : Nat) : FileType :=
  if fsModeIsRegular typ then .File
  else if fsModeTypeOf typ = fsModeDir then .Dir
  else .Other

/-! ## `PrintMode` bits (`mode.go`) -/

def ModeType : Nat := 1
def ModeSize : Nat := 2
def ModeCRC32 : Nat := 4
def ModeDefault : Nat := ModeType ||| ModeSize
def ModeAll : Nat := ModeType ||| ModeSize ||| ModeCRC32

/-! ## Field padding (`fmt.Sprintf("%-*s", w, s)`)

Go's `%-*s` verb *left-justifies* `s` in a field of minimum width `w`:
when `s` is shorter than `w` it is padded with spaces on the right,
and it is never truncated. -/

/-- Model of `fmt.Sprintf("%-*s", w, s)` (left-justified, i.e. padded
on the right with spaces up to width `w`). -/
def padRightGo (w : Nat) (s : String) : String :=
  if w ≤ s.length then s
  else s ++ String.mk (List.replicate (w - s.length) ' ')

/-- Spec-side definition, used to test the specification's wording:
`s` padded with spaces *on the left* up to width `w`. -/
def padLeftSpec (w : Nat) (s : String) : String :=
  if w ≤ s.length then s
  else String.mk (List.replicate (w - s.length) ' ') ++ s

/-! ## Size formatting (`mode.go`) -/

/-- `sizeDigits` (`mode.go`): sizes are padded to this many digits
(plus the `b` suffix) for alignment. -/
def sizeDigits : Nat := 9

/-- Model of Go `strconv.FormatInt(i, 10)`. -/
def goFormatInt (i : Int) : String := toString i

/-- `formatSize` (`mode.go`): for regular files, the decimal byte
count suffixed with `b`, left-justified in a field of
`sizeDigits + 1` characters (longer renderings are not truncated);
for any other type, an all-space field of the same width. -/
def formatSize (ft : FileType) (size : Int) : String :=
  if ft ≠ .File then padRightGo (sizeDigits + 1) ""
  else
    let str := goFormatInt size ++ "b"
    if sizeDigits < str.length then str
    else padRightGo (sizeDigits + 1) str

/-! ## CRC-32 (IEEE) and its rendering (`hash/crc32`, `mode.go`)

`crc32.NewIEEE` + `io.Copy` compute the reflected CRC-32 with
polynomial `0xedb88320`, initial value `0xffffffff` and a final
complement; the table-driven Go implementation is equivalent to the
bit-at-a-time recurrence modelled here. -/

def crc32Poly : Nat := 0xedb88320

/-- One bit step of the reflected CRC-32 recurrence. -/
def crc32Step (c : Nat) : Nat :=
  if c &&& 1 = 1 then (c >>> 1) ^^^ crc32Poly else c >>> 1

/-- Fold one input byte into the running CRC (8 bit steps). -/
def crc32Byte (c b : Nat) : Nat :=
  crc32Step (crc32Step (crc32Step (crc32Step
    (crc32Step (crc32Step (crc32Step (crc32Step (c ^^^ (b &&& 255)))))))))

/-- The IEEE CRC-32 of a byte sequence (Go `crc32.ChecksumIEEE`). -/
def crc32 (data : List Nat) : Nat :=
  (data.foldl crc32Byte 0xffffffff) ^^^ 0xffffffff

/-- Lowercase hexadecimal digit characters, as produced by Go's `%x`. -/
def hexDigitChar (n : Nat) : Char :=
  if n < 10 then Char.ofNat (48 + n) else Char.ofNat (87 + n)

/-- The value of a lowercase hexadecimal digit character. -/
def hexCharVal (c : Char) : Nat :=
  if 97 ≤ c.toNat then c.toNat - 87 else c.toNat - 48

/-- `k` hexadecimal digits of `v`, most significant first (the
rendering Go's `fmt.Sprintf("%0*x", k, v)` produces whenever
`v < 16^k`, which always holds here since CRC-32 values fit 32 bits). -/
def hexFixed : Nat → Nat → List Char
  | 0, _ => []
  | k + 1, v => hexFixed k (v >>> 4) ++ [hexDigitChar (v &&& 15)]

/-- The numeric value of a big-endian string of hex digits. -/
def hexVal (l : List Char) : Nat :=
  l.foldl (fun a c => a * 16 + hexCharVal c) 0

/-! ## Checksum engine (`mode.go`) -/

/-- `crcChars` (`mode.go`): number of chars in the hexadecimal
representation of a CRC-32 (`crc32.Size * 2`). -/
def crcChars : Nat := 4 * 2

/-- The raw "not applicable" string (`mode.go`, `const na = "n/a"`). -/
def naStr : String := "n/a"

/-- `checksumNA` (`mode.go`): the `n/a` sentinel, left-justified in
the fixed `crcChars`-wide checksum field
(`fmt.Sprintf("%-*s", crcChars, na)`). -/
def checksumNA : String := padRightGo crcChars naStr

/-- Outcome of opening and fully reading one file, the two effectful
steps of `checksum` (`fsys.Open`/`os.Open`, then `io.Copy`): the open
can fail, the read can fail, or the full content is obtained. -/
inductive ReadRes where
  | openFail
  | readFail
  | ok (data : List Nat)
deriving DecidableEq, Repr

/-- Core of `checksum` (`mode.go`): on either failure the deferred
`recover` turns the panic into the `checksumNA` sentinel; on success
the CRC-32 of the full content is rendered as `crcChars` hex digits
(`fmt.Sprintf("%0*x", crcChars, h.Sum32())`). -/
def checksumResult : ReadRes → String
  | .openFail => checksumNA
  | .readFail => checksumNA
  | .ok data => String.mk (hexFixed crcChars (crc32 data))

/-- A filesystem, for the purpose of `checksum`: what opening and
reading the file at a given path yields. -/
def ChecksumFS : Type := String → ReadRes

/-- `checksum(fsys, path)` (`mode.go`): open the path (through `fsys`,
or the OS filesystem when `fsys` is nil — both are one `ChecksumFS`
here) and stream the content through a CRC-32 accumulator. -/
def checksum (fsys : ChecksumFS) (path : String) : String :=
  checksumResult (fsys path)

/-! ## The `Entry` model (`mode.go`) -/

/-- `Entry` (`mode.go`): gathered information about one file.  The
`Type` field of the Go struct is named `etype` here (`Type` is a Lean
keyword); `mode` is the `PrintMode` the entry was built with. -/
structure Entry where
  path : String := ""
  etype : FileType
  size : Int
  checksum : String
  mode : Nat
deriving DecidableEq, Repr

/-- `newEntry` (`mode.go`): builds an `Entry`.  The size is resolved
(via `Stat`) only when `ModeSize` is requested, and a stat failure is
a hard error; the checksum is resolved only when `ModeCRC32` is
requested, with non-regular files stored as the raw `na` string and
regular files going through `checksum` (whose failures degrade to the
sentinel). -/
def newEntry (mode : Nat) (fullpath : String) (ft : FileType)
    (size : Int) (statErr : Bool) (content : ReadRes) : Except String Entry :=
  if mode &&& ModeSize ≠ 0 ∧ statErr then
    .error ("failed to get size of " ++ fullpath)
  else
    .ok { path := fullpath
          etype := ft
          size := if mode &&& ModeSize ≠ 0 then size else 0
          checksum :=
            if mode &&& ModeCRC32 ≠ 0 then
              if ft ≠ .File then naStr else checksumResult content
            else ""
          mode := mode }

/-- The `sep` closure of `Entry.Format` (`mode.go`): append a single
space, but only if something was already written. -/
def sepW (sb : String) : String := if sb.length ≠ 0 then sb ++ " " else sb

/-- `Entry.Format` (`mode.go`): renders the fields selected by the
entry's `PrintMode`, in the fixed order type, size, checksum, each
preceded by a separating space when it is not first, with a final
trailing space.  The checksum of a non-regular file is always rendered
as the `checksumNA` sentinel, whatever is stored in the entry. -/
def Entry.Format (e : Entry) : String :=
  let sb := ""
  let sb := if e.mode &&& ModeType ≠ 0 then sepW sb ++ String.singleton e.etype.char else sb
  let sb := if e.mode &&& ModeSize ≠ 0 then sepW sb ++ formatSize e.etype e.size else sb
  let sb :=
    if e.mode &&& ModeCRC32 ≠ 0 then
      sepW sb ++ "crc=" ++ (if e.etype ≠ .File then checksumNA else e.checksum)
    else sb
  sepW sb

/-! Spec-side rendering contract: the list of rendered fields, joined
by single spaces with one trailing space. -/

/-- The fields `Entry.Format` is specified to emit, in order. -/
def fieldList (mode : Nat) (ft : FileType) (size : Int) (cks : String) : List String :=
  (if mode &&& ModeType ≠ 0 then [String.singleton ft.char] else []) ++
  (if mode &&& ModeSize ≠ 0 then [formatSize ft size] else []) ++
  (if mode &&& ModeCRC32 ≠ 0 then
    ["crc=" ++ (if ft ≠ .File then checksumNA else cks)] else [])

/-- Spec-side joining rule: fields separated by exactly one space,
with a single trailing space after the last one (nothing at all when
no field is requested): every emitted field is followed by exactly
one space. -/
def joinFields : List String → String
  | [] => ""
  | f :: fs => f ++ " " ++ joinFields fs

/-! ## Glob matching (Go `path/filepath.Match`, Unix separator `/`)

`filepath.Match` is the matcher `dirtree` delegates to, so it is
embedded here following the Go standard-library algorithm
(`scanChunk` / `matchChunk` / `getEsc`): a pattern is processed as a
sequence of chunks separated by top-level `*`s; a chunk is matched
against the front of the name, and — since Go 1.16 — its syntax keeps
being checked even after the match has failed, so that
`ErrBadPattern` is reported independently of the name.  Errors are
modelled as `Except Unit`.  The chunk-level loops are written with an
explicit fuel argument (any fuel larger than the chunk length is
enough), which keeps every function structurally recursive and
directly computable. -/

/-- `getEsc` (Go `match.go`): reads one (possibly `\`-escaped)
character of a `[...]` class; a leading `-` or `]`, a dangling escape,
or running off the end of the chunk is a bad pattern. -/
def goGetEsc (chunk : List Char) : Except Unit (Char × List Char) :=
  match chunk with
  | [] => .error ()
  | c :: rest =>
    if c = '-' ∨ c = ']' then .error ()
    else
      match (if c = '\\' then rest else c :: rest) with
      | [] => .error ()
      | r :: rest2 => if rest2 = [] then .error () else .ok (r, rest2)

/-- The `[...]`-class range loop of `matchChunk`: scans `lo`-`hi`
ranges until the closing `]` (which must come after at least one
range), accumulating whether `r` falls in some range. -/
def goClassRanges : Nat → List Char → Char → Bool → Nat → Except Unit (Bool × List Char)
  | 0, _, _, _, _ => .error ()
  | fuel + 1, chunk, r, acc, nrange =>
    if chunk.head? = some ']' ∧ 0 < nrange then .ok (acc, chunk.tail)
    else
      match goGetEsc chunk with
      | .error e => .error e
      | .ok (lo, chunk1) =>
        match (if chunk1.head? = some '-' then goGetEsc chunk1.tail else .ok (lo, chunk1)) with
        | .error e => .error e
        | .ok (hi, chunk2) =>
          goClassRanges fuel chunk2 r (acc || (lo ≤ r ∧ r ≤ hi)) (nrange + 1)

/-- `matchChunk` (Go `match.go`): matches a chunk (no top-level `*`)
against the beginning of `s`.  Returns `some rest` on success, `none`
on a mismatch, `.error` on a bad pattern; after a mismatch the chunk
continues to be parsed (`failed` flag) so syntax errors are still
surfaced. -/
def goMatchChunk : Nat → List Char → List Char → Bool → Except Unit (Option (List Char))
  | 0, _, _, _ => .error ()
  | fuel + 1, chunk, s, failed0 =>
    match chunk with
    | [] => if failed0 then .ok none else .ok (some s)
    | c :: chunkRest =>
      let failed := failed0 || s.isEmpty
      if c = '[' then
        let r := if failed then Char.ofNat 0 else s.headD (Char.ofNat 0)
        let s' := if failed then s else s.tail
        let negated := chunkRest.head? = some '^'
        let chunk1 := if chunkRest.head? = some '^' then chunkRest.tail else chunkRest
        match goClassRanges fuel chunk1 r false 0 with
        | .error e => .error e
        | .ok (mtch, chunk2) =>
          goMatchChunk fuel chunk2 s' (if mtch = negated then true else failed)
      else if c = '?' then
        if failed then goMatchChunk fuel chunkRest s failed
        else goMatchChunk fuel chunkRest s.tail (failed || s.headD 'x' = '/')
      else if c = '\\' then
        match chunkRest with
        | [] => .error ()
        | ec :: rest2 =>
          if failed then goMatchChunk fuel rest2 s failed
          else goMatchChunk fuel rest2 s.tail (failed || s.headD 'x' ≠ ec)
      else
        if failed then goMatchChunk fuel chunkRest s failed
        else goMatchChunk fuel chunkRest s.tail (failed || s.headD 'x' ≠ c)

/-- Leading-`*` consumption of `scanChunk`. -/
def dropStars : List Char → Bool × List Char
  | [] => (false, [])
  | c :: rest =>
    if c = '*' then (true, (dropStars rest).2) else (false, c :: rest)

/-- Body scan of `scanChunk`: collects characters up to the next
top-level `*` (stars inside `[...]` do not split; a `\` protects the
following character). -/
def goScanBody : List Char → Bool → List Char × List Char
  | [], _ => ([], [])
  | c :: rest, inrange =>
    if c = '\\' then
      match rest with
      | [] => ([c], [])
      | e :: rest2 =>
        let (ch, rem) := goScanBody rest2 inrange
        (c :: e :: ch, rem)
    else if c = '[' then
      let (ch, rem) := goScanBody rest true
      (c :: ch, rem)
    else if c = ']' then
      let (ch, rem) := goScanBody rest false
      (c :: ch, rem)
    else if c = '*' ∧ inrange = false then ([], c :: rest)
    else
      let (ch, rem) := goScanBody rest inrange
      (c :: ch, rem)

/-- `scanChunk` (Go `match.go`): splits the pattern into an optional
leading star, a star-free chunk, and the rest of the pattern. -/
def goScanChunk (pattern : List Char) : Bool × List Char × List Char :=
  let (star, p) := dropStars pattern
  let (chunk, rest) := goScanBody p false
  (star, chunk, rest)

/-- The star-retry loop of `Match`: after a `*`, try matching the next
chunk at every later position of the name, never skipping past a
separator `/`. -/
def goStarLoop (fuel : Nat) (chunk : List Char) (patRest : List Char) :
    List Char → Except Unit (Option (List Char))
  | [] => .ok none
  | c :: rest =>
    if c = '/' then .ok none
    else
      match goMatchChunk fuel chunk rest false with
      | .error e => .error e
      | .ok (some t) =>
        if patRest = [] ∧ t ≠ [] then goStarLoop fuel chunk patRest rest
        else .ok (some t)
      | .ok none => goStarLoop fuel chunk patRest rest

/-- Final syntax validation of `Match`: before returning a plain
mismatch, the unconsumed remainder of the pattern is still checked for
well-formedness (against the empty name). -/
def goValidateRest : Nat → List Char → Except Unit Bool
  | 0, _ => .error ()
  | _ + 1, [] => .ok false
  | fuel + 1, pattern =>
    let (_, chunk, rest) := goScanChunk pattern
    match goMatchChunk (chunk.length + 1) chunk [] false with
    | .error e => .error e
    | .ok _ => goValidateRest fuel rest

/-- Main loop of Go `filepath.Match` (Unix): processes the pattern
chunk by chunk; a trailing bare `*` matches any remainder without a
separator; a mismatch without error still validates the remaining
pattern. -/
def goMatchMain : Nat → List Char → List Char → Except Unit Bool
  | 0, _, _ => .error ()
  | fuel + 1, pattern, nm =>
    match pattern with
    | [] => .ok (nm = [])
    | _ :: _ =>
      let (star, chunk, rest) := goScanChunk pattern
      if star ∧ chunk = [] then .ok (nm.contains '/' = false)
      else
        let fallThrough : Except Unit Bool :=
          if star then
            match goStarLoop (chunk.length + 1) chunk rest nm with
            | .error e => .error e
            | .ok (some t) => goMatchMain fuel rest t
            | .ok none => goValidateRest (rest.length + 1) rest
          else goValidateRest (rest.length + 1) rest
        match goMatchChunk (chunk.length + 1) chunk nm false with
        | .error e => .error e
        | .ok (some t) =>
          if t = [] ∨ rest ≠ [] then goMatchMain fuel rest t else fallThrough
        | .ok none => fallThrough

/-- Go `filepath.Match(pattern, name)` on a slash-separated path. -/
def goMatch (pattern nm : String) : Except Unit Bool :=
  goMatchMain (pattern.length + 1) pattern.toList nm.toList

/-- The way the `dirtree` filters call the matcher: `m, _ :=
filepath.Match(p, rel)` — the error is discarded and an erroring
match counts as a non-match. -/
def goMatchBool (pattern nm : String) : Bool :=
  match goMatch pattern nm with
  | .error _ => false
  | .ok b => b

/-- Whether the configuration-time validation probe
(`filepath.Match(pattern, "/")`) reports the pattern as malformed. -/
def patternBad (pattern : String) : Bool :=
  match goMatch pattern "/" with
  | .error _ => true
  | .ok _ => false

/-! ## Match/ignore patterns and `shouldKeepPath` (`options.go`) -/

/-- The two pattern roles (`type matchOrIgnore bool`): `match = true`,
`ignore = false`.  (`match` is a Lean keyword, hence the `moi` names.) -/
def moiMatch : Bool := true
def moiIgnore : Bool := false

/-- `pattern` (`options.go`): a glob expression with its role. -/
structure GlobPattern where
  pat : String
  moi : Bool
deriving DecidableEq, Repr

/-- The loop of `shouldKeepPath`, with its two accumulator variables
`keep` and `hasMatch`: an ignore-role pattern that matches returns
`false` immediately; a match-role pattern records its presence and
whether it matched; at the end the path is kept unless some match-role
pattern existed and none matched. -/
def shouldKeepPathLoop (path : String) : List GlobPattern → Bool → Bool → Bool
  | [], keep, hasMatch => !hasMatch || keep
  | p :: ps, keep, hasMatch =>
    let m := goMatchBool p.pat path
    if m ∧ p.moi = moiIgnore then false
    else if p.moi = moiMatch then shouldKeepPathLoop path ps (keep || m) true
    else shouldKeepPathLoop path ps keep hasMatch

/-- `shouldKeepPath` (`options.go`).  (The Go function first returns
`true` when the slice is nil; the loop below returns `true` on an
empty list as well, so the nil fast path needs no separate case.) -/
def shouldKeepPath (path : String) (ps : List GlobPattern) : Bool :=
  shouldKeepPathLoop path ps false false

/-- Spec-side: some ignore-role pattern matches the path. -/
def hasIgnoreMatch (path : String) (ps : List GlobPattern) : Bool :=
  ps.any fun p => p.moi = moiIgnore && goMatchBool p.pat path

/-- Spec-side: at least one match-role pattern is present. -/
def hasMatchRole (ps : List GlobPattern) : Bool :=
  ps.any fun p => p.moi = moiMatch

/-- Spec-side: some match-role pattern matches the path. -/
def hasMatchMatch (path : String) (ps : List GlobPattern) : Bool :=
  ps.any fun p => p.moi = moiMatch && goMatchBool p.pat path

/-! ## Options and configuration resolution (`options.go`) -/

/-- The resolved configuration (`type config struct`, the variant with
type filtering and role-tagged globs): active print mode, root
visibility, ordered glob list, depth limit (`0` = unlimited) and
allowed-type bit set. -/
structure Config where
  mode : Nat
  showRoot : Bool
  globs : List GlobPattern
  depth : Int
  types : Nat
deriving DecidableEq, Repr

/-- `defaultCfg` (`options.go`): default mode, root shown, no globs,
unlimited depth, all types. -/
def defaultCfg : Config :=
  { mode := ModeDefault
    showRoot := true
    globs := []
    depth := 0
    types := FileType.File.bit ||| FileType.Dir.bit ||| FileType.Other.bit }

/-- The option values (`Option` implementors in `options.go`):
`PrintMode`, `Type`, `IncludeRoot`, `Ignore`, `Match`, `Depth`. -/
inductive Opt where
  | printMode (m : Nat)
  | typeOpt (t : String)
  | includeRoot (b : Bool)
  | ignoreOpt (p : String)
  | matchOpt (p : String)
  | depthOpt (d : Int)
deriving DecidableEq, Repr

/-- The character loop of `Type.apply`: accumulate the bit of each
valid type character, failing on anything else. -/
def typeApplyLoop : List Char → Nat → Except String Nat
  | [], acc => .ok acc
  | c :: cs, acc =>
    if c = FileType.File.char then typeApplyLoop cs (acc ||| FileType.File.bit)
    else if c = FileType.Dir.char then typeApplyLoop cs (acc ||| FileType.Dir.bit)
    else if c = FileType.Other.char then typeApplyLoop cs (acc ||| FileType.Other.bit)
    else .error "invalid Type char, must be f, d or ?"

/-- The `apply` methods of the option types (`options.go`): each
option validates itself and mutates one or more configuration
fields.  Glob options are validated with the probe
`filepath.Match(pattern, "/")`; a negative depth and an empty or
invalid type string are rejected. -/
def applyOpt (o : Opt) (cfg : Config) : Except String Config :=
  match o with
  | .printMode m => .ok { cfg with mode := m }
  | .typeOpt t =>
    if t = "" then .error "invalid Type: at least one type must be listed"
    else
      match typeApplyLoop t.toList 0 with
      | .error e => .error e
      | .ok types => .ok { cfg with types := types }
  | .includeRoot b => .ok { cfg with showRoot := b }
  | .ignoreOpt p =>
    if patternBad p then .error ("invalid ignore pattern " ++ p)
    else .ok { cfg with globs := cfg.globs ++ [⟨p, moiIgnore⟩] }
  | .matchOpt p =>
    if patternBad p then .error ("invalid match pattern " ++ p)
    else .ok { cfg with globs := cfg.globs ++ [⟨p, moiMatch⟩] }
  | .depthOpt d =>
    if d < 0 then .error "negative Depth is invalid"
    else .ok { cfg with depth := d }

/-- The option-resolution loop of the entry points (`for _, o := range
opts { if err := o.apply(&cfg); err != nil { return ... } }`): options
apply in order, the first failure aborts with a configuration error. -/
def resolveConfig : List Opt → Config → Except String Config
  | [], cfg => .ok cfg
  | o :: os, cfg =>
    match applyOpt o cfg with
    | .error e => .error ("dirtree: configuration error: " ++ e)
    | .ok cfg' => resolveConfig os cfg'

/-! Spec-side characterizations of failing options. -/

/-- The failing options enumerated by the claim: an empty type-filter
string, a malformed glob pattern, or a negative depth. -/
def optFailsClaim : Opt → Bool
  | .typeOpt t => t = ""
  | .ignoreOpt p => patternBad p
  | .matchOpt p => patternBad p
  | .depthOpt d => d < 0
  | _ => false

/-- The options that actually make configuration fail: additionally, a
type-filter string containing a character other than `f`, `d`, `?`. -/
def optFailsActual : Opt → Bool
  | .typeOpt t => t = "" || (typeApplyLoop t.toList 0).isOk = false
  | .ignoreOpt p => patternBad p
  | .matchOpt p => patternBad p
  | .depthOpt d => d < 0
  | _ => false

/-! ## The walker (`dirtree.go`, `func Write`)

The embedded walker is the `Write` of `dirtree.go` (depth check,
ignore-pattern check, per-node line written as the formatted fields
followed by the slash-based relative path and a newline), with the
per-node rendering of `newEntry` / `Entry.Format` (`mode.go`).

Its configuration (`type config struct` of that file) carries the
print mode, the root visibility, the plain ignore-pattern list and the
depth limit. -/

/-- Walker configuration (`dirtree.go` variant of `config`). -/
structure WConfig where
  mode : Nat
  showRoot : Bool
  ignorePats : List String
  depth : Int
deriving DecidableEq, Repr

/-- `defaultCfg` of `dirtree.go`: `ModeAll`, root shown, no ignore
patterns, unlimited depth. -/
def defaultWCfg : WConfig :=
  { mode := ModeAll, showRoot := true, ignorePats := [], depth := 0 }

/-- The options available to this walker (`PrintMode`, `IncludeRoot`,
`Ignore`, `Depth`). -/
inductive WOpt where
  | printMode (m : Nat)
  | includeRoot (b : Bool)
  | ignoreOpt (p : String)
  | depthOpt (d : Int)
deriving DecidableEq, Repr

/-- The `apply` methods of the walker's option types, validations
identical to `options.go`. -/
def applyWOpt (o : WOpt) (cfg : WConfig) : Except String WConfig :=
  match o with
  | .printMode m => .ok { cfg with mode := m }
  | .includeRoot b => .ok { cfg with showRoot := b }
  | .ignoreOpt p =>
    if patternBad p then .error ("invalid ignore pattern " ++ p)
    else .ok { cfg with ignorePats := cfg.ignorePats ++ [p] }
  | .depthOpt d =>
    if d < 0 then .error "negative Depth is invalid"
    else .ok { cfg with depth := d }

/-- Option resolution of `Write` (`dirtree.go`). -/
def resolveWConfig : List WOpt → WConfig → Except String WConfig
  | [], cfg => .ok cfg
  | o :: os, cfg =>
    match applyWOpt o cfg with
    | .error e => .error ("dirtree: configuration error: " ++ e)
    | .ok cfg' => resolveWConfig os cfg'

/-- Go `strings.Split(s, "/")` (the depth check splits the relative
path at the path separator, which is `/` on Unix). -/
def splitSlash : List Char → List (List Char)
  | [] => [[]]
  | c :: cs =>
    if c = '/' then [] :: splitSlash cs
    else
      match splitSlash cs with
      | [] => [[c]]
      | s :: ss => (c :: s) :: ss

/-- A directory tree, in leftmost-child right-sibling form: `leafEnd`
ends a sibling list; a `node` carries the entry name, the
`dirent.Type()` bits, and the filesystem answers the walk may need:
the `Stat` size (with `statErr` for a failing stat) and the
open/read outcome of the content.  `children` is the (lexically
ordered, as delivered by `WalkDir`) list of entries of a directory,
`next` the following sibling. -/
inductive FTree where
  | leafEnd : FTree
  | node (nm : List Char) (typ : Nat) (size : Int) (statErr : Bool)
      (content : ReadRes) (children : FTree) (next : FTree) : FTree
deriving DecidableEq, Repr

/-- One visited node: its relative path and, when the walk printed a
line for it, that line. -/
structure Visit where
  rel : List Char
  line : Option String
deriving DecidableEq, Repr

/-- Per-node rendering of the walk: classify the entry, build the
`Entry` (hard error when a requested size cannot be statted), format
it, and append the relative path and the line terminator — the line
written by `Write` is `<formatted fields><relative path>\n`. -/
def renderNode (cfg : WConfig) (rel : List Char) (typ : Nat) (size : Int)
    (statErr : Bool) (content : ReadRes) : Except String String :=
  let ft := filetypeFromDirEntry typ
  match newEntry cfg.mode (String.mk rel) ft size statErr content with
  | .error e => .error ("can't format: " ++ e)
  | .ok ent => .ok (ent.Format ++ String.mk rel ++ "\n")

/-- The body of the `WalkDir` callback (`dirtree.go`), minus the
root bookkeeping, as a function of one node.  Result: the line
printed for the node (if any), a fatal error (if any), and whether
the walk should descend into the node's children (`false` models
returning `fs.SkipDir` for a too-deep directory).

Order of the checks, as in the source: root exclusion, depth check
(a node whose relative path has more slash-separated segments than a
non-zero depth limit is skipped, and pruned when it is a directory),
ignore patterns (skipped but not pruned), then rendering. -/
def nodeVisit (cfg : WConfig) (isRoot : Bool) (rel : List Char) (typ : Nat)
    (size : Int) (statErr : Bool) (content : ReadRes) :
    Option String × Option String × Bool :=
  if isRoot ∧ cfg.showRoot = false then (none, none, true)
  else if cfg.depth ≠ 0 ∧ ((splitSlash rel).length : Int) > cfg.depth then
    (none, none, false)
  else if cfg.ignorePats.any (fun p => goMatchBool p (String.mk rel)) then
    (none, none, true)
  else
    match renderNode cfg rel typ size statErr content with
    | .error e => (none, some e, false)
    | .ok l => (some l, none, true)

/-- The relative path of a directory entry named `nm` whose parent
has relative path `pRel` (`filepath.Rel(root, fullpath)`): children of
the root get their bare name. -/
def childRel (pIsRoot : Bool) (pRel nm : List Char) : List Char :=
  if pIsRoot then nm else pRel ++ '/' :: nm

/-- Walk a sibling list whose parent has relative path `pRel` (the
children of the root get their bare name as relative path).  Children
are visited only for directory entries (`WalkDir` reads the entries of
directories only); an error from a node aborts the entire walk. -/
def walkList (cfg : WConfig) (pIsRoot : Bool) (pRel : List Char) :
    FTree → List Visit × Option String
  | .leafEnd => ([], none)
  | .node nm typ size statErr content children next =>
    let rel := childRel pIsRoot pRel nm
    let isDir := typ &&& fsModeDir ≠ 0
    let (line, err, descend) := nodeVisit cfg false rel typ size statErr content
    match err with
    | some e => ([⟨rel, line⟩], some e)
    | none =>
      let (cvs, ce) :=
        if descend ∧ isDir then walkList cfg false rel children else ([], none)
      match ce with
      | some e => (⟨rel, line⟩ :: cvs, some e)
      | none =>
        let (nvs, ne) := walkList cfg pIsRoot pRel next
        (⟨rel, line⟩ :: cvs ++ nvs, ne)

/-- Walk from the root: the root's relative path is `"."`
(`filepath.Rel(root, root)`), it is the first node visited (even when
not rendered), and its children use their bare names as relative
paths. -/
def walkRoot (cfg : WConfig) : FTree → List Visit × Option String
  | .leafEnd => ([], none)
  | .node _ typ size statErr content children _ =>
    let rel := ['.']
    let isDir := typ &&& fsModeDir ≠ 0
    let (line, err, descend) := nodeVisit cfg true rel typ size statErr content
    match err with
    | some e => ([⟨rel, line⟩], some e)
    | none =>
      let (cvs, ce) :=
        if descend ∧ isDir then walkList cfg true rel children else ([], none)
      (⟨rel, line⟩ :: cvs, ce)

/-- `Write` (`dirtree.go`), instrumented with the visit sequence:
resolve the options (any failure aborts before any node is visited
and before any output is produced), walk the tree, and concatenate
the printed lines.  Result: visits, output, error. -/
def Write (root : FTree) (opts : List WOpt) :
    List Visit × String × Option String :=
  match resolveWConfig opts defaultWCfg with
  | .error e => ([], "", some e)
  | .ok cfg =>
    let (vs, err) := walkRoot cfg root
    let out := String.join (vs.filterMap (·.line))
    match err with
    | some e => (vs, out, some ("dirtree: error walking directory: " ++ e))
    | none => (vs, out, none)

/-- `Sprint` (`dirtree.go`): calls `Write` and returns the rendered
listing, or the empty string alongside the error when `Write`
failed. -/
def Sprint (root : FTree) (opts : List WOpt) : String × Option String :=
  match Write root opts with
  | (_, _, some e) => ("", some e)
  | (_, out, none) => (out, none)

/-! Spec-side helpers about trees and walks. -/

/-- All relative paths `WalkDir` can reach in a sibling list (children
are enumerated for directories only), in visit order. -/
def allRelsList (pIsRoot : Bool) (pRel : List Char) : FTree → List (List Char)
  | .leafEnd => []
  | .node nm typ _ _ _ children next =>
    let rel := childRel pIsRoot pRel nm
    let isDir := typ &&& fsModeDir ≠ 0
    (rel :: (if isDir then allRelsList false rel children else [])) ++
      allRelsList pIsRoot pRel next

/-- All relative paths reachable from the root, in visit order. -/
def allRelsRoot : FTree → List (List Char)
  | .leafEnd => []
  | .node _ typ _ _ _ children _ =>
    ['.'] :: (if typ &&& fsModeDir ≠ 0 then allRelsList true ['.'] children else [])

/-- No node of the tree has a failing stat. -/
def noStatErr : FTree → Bool
  | .leafEnd => true
  | .node _ _ _ statErr _ children next =>
    !statErr && noStatErr children && noStatErr next

/-! Concrete fixtures used by the witnesses below. -/

/-- A lowercase hexadecimal digit character. -/
def isHexLower (c : Char) : Bool :=
  decide (('0' ≤ c ∧ c ≤ '9') ∨ ('a' ≤ c ∧ c ≤ 'f'))

/-- Whether an `Except` value is an error. -/
def isErrE {α : Type} (x : Except String α) : Bool :=
  match x with
  | .error _ => true
  | .ok _ => false

def c1ps : List GlobPattern := [⟨"*/file1", moiIgnore⟩, ⟨"*", moiMatch⟩]

def c2cfg : WConfig := { mode := ModeType, showRoot := true, ignorePats := [], depth := 1 }

def c2tree : FTree :=
  .node ['.'] fsModeDir 0 false .openFail
    (.node ['A'] fsModeDir 0 false .openFail
      (.node ['B'] fsModeDir 0 false .openFail .leafEnd .leafEnd) .leafEnd) .leafEnd

def c3fs : ChecksumFS := fun _ => .openFail

def c3tree : FTree :=
  .node ['.'] fsModeDir 0 false .openFail
    (.node ['x'] 0 5 false .readFail .leafEnd .leafEnd) .leafEnd

def c4e : Entry :=
  { path := "", etype := .File, size := 13, checksum := "0451ac5e", mode := ModeAll }

def c7tree : FTree := .node ['.'] fsModeDir 0 false .openFail .leafEnd .leafEnd

def c8fs : ChecksumFS := fun p =>
  if p = "A/file1" then .ok ("dummy content".data.map Char.toNat) else .openFail

def c10tree : FTree :=
  .node ['.'] fsModeDir 0 false .openFail
    (.node ['x'] 0 5 true .readFail .leafEnd .leafEnd) .leafEnd

/-! ## Helper lemmas -/

theorem sepW_of_ne (s : String) (h : s.length ≠ 0) : sepW s = s ++ " " := by
  simp [sepW, h]

theorem sepW_empty : sepW "" = "" := rfl

/-- `sepW` after an appended nonempty field. -/
theorem sepW_append_ne (sb f : String) (h : f.length ≠ 0) :
    sepW (sb ++ f) = sb ++ f ++ " " := by
  rw [sepW_of_ne]
  rw [String.length_append]
  omega

theorem padRightGo_length (w : Nat) (s : String) :
    (padRightGo w s).length = max s.length w := by
  unfold padRightGo
  split
  · omega
  · simp only [String.length_append, String.length_mk, List.length_replicate]
    omega

theorem formatSize_length_pos (ft : FileType) (size : Int) :
    (formatSize ft size).length ≠ 0 := by
  unfold formatSize
  split
  · rw [padRightGo_length]; simp [sizeDigits]
  · dsimp only
    split
    · omega
    · rw [padRightGo_length]; simp [sizeDigits]

theorem crcField_length_pos (x : String) : ("crc=" ++ x).length ≠ 0 := by
  rw [String.length_append]
  have : ("crc=" : String).length = 4 := rfl
  omega

/-- The builder of `Entry.Format` produces exactly the requested
fields joined by single separating spaces plus a trailing one. -/
theorem Format_eq_joinFields (e : Entry) :
    e.Format = joinFields (fieldList e.mode e.etype e.size e.checksum) := by
  have hsing : (String.singleton e.etype.char).length ≠ 0 := by
    rw [String.length_singleton]; omega
  have hfs : (formatSize e.etype e.size).length ≠ 0 := formatSize_length_pos _ _
  have hcrc : ("crc=" ++ (if e.etype ≠ .File then checksumNA else e.checksum)).length ≠ 0 :=
    crcField_length_pos _
  unfold Entry.Format fieldList
  by_cases h1 : e.mode &&& ModeType ≠ 0 <;>
    by_cases h2 : e.mode &&& ModeSize ≠ 0 <;>
      by_cases h3 : e.mode &&& ModeCRC32 ≠ 0 <;>
        simp only [h1, h2, h3, ite_true, ite_false, if_true, if_false, not_false_iff,
          ne_eq, not_false_eq_true, List.cons_append, List.nil_append, List.append_nil,
          sepW_empty, String.empty_append]
  · -- type, size, crc
    rw [sepW_of_ne _ hsing, sepW_append_ne _ _ hfs,
        String.append_assoc (String.singleton e.etype.char ++ " " ++
          formatSize e.etype e.size ++ " ") "crc="
          (if e.etype ≠ .File then checksumNA else e.checksum),
        sepW_append_ne _ _ hcrc]
    simp only [joinFields, ne_eq, String.append_assoc, String.append_empty]
  · -- type, size
    rw [sepW_of_ne _ hsing, sepW_append_ne _ _ hfs]
    simp only [joinFields, ne_eq, String.append_assoc, String.append_empty]
  · -- type, crc
    rw [sepW_of_ne _ hsing,
        String.append_assoc (String.singleton e.etype.char ++ " ") "crc="
          (if e.etype ≠ .File then checksumNA else e.checksum),
        sepW_append_ne _ _ hcrc]
    simp only [joinFields, ne_eq, String.append_assoc, String.append_empty]
  · -- type only
    rw [sepW_of_ne _ hsing]
    simp only [joinFields, ne_eq, String.append_assoc, String.append_empty]
  · -- size, crc
    rw [sepW_of_ne _ hfs,
        String.append_assoc (formatSize e.etype e.size ++ " ") "crc="
          (if e.etype ≠ .File then checksumNA else e.checksum),
        sepW_append_ne _ _ hcrc]
    simp only [joinFields, ne_eq, String.append_assoc, String.append_empty]
  · -- size only
    rw [sepW_of_ne _ hfs]
    simp only [joinFields, ne_eq, String.append_assoc, String.append_empty]
  · -- crc only
    rw [sepW_of_ne _ hcrc]
    simp only [joinFields, ne_eq, String.append_assoc, String.append_empty]
  · rfl

/-! Bounds and faithfulness of the CRC-32 rendering. -/

theorem crc32Step_lt (c : Nat) (h : c < 2 ^ 32) : crc32Step c < 2 ^ 32 := by
  unfold crc32Step
  have hs : c >>> 1 < 2 ^ 32 := by
    rw [Nat.shiftRight_eq_div_pow]
    omega
  split
  · exact Nat.xor_lt_two_pow hs (by norm_num [crc32Poly])
  · exact hs

theorem crc32Byte_lt (c b : Nat) (h : c < 2 ^ 32) : crc32Byte c b < 2 ^ 32 := by
  unfold crc32Byte
  have h0 : c ^^^ (b &&& 255) < 2 ^ 32 :=
    Nat.xor_lt_two_pow h (by have := Nat.and_le_right (n := b) (m := 255); omega)
  exact crc32Step_lt _ (crc32Step_lt _ (crc32Step_lt _ (crc32Step_lt _ (crc32Step_lt _
    (crc32Step_lt _ (crc32Step_lt _ (crc32Step_lt _ h0)))))))

theorem crc32_lt (data : List Nat) : crc32 data < 2 ^ 32 := by
  unfold crc32
  have : ∀ (l : List Nat) (acc : Nat), acc < 2 ^ 32 → l.foldl crc32Byte acc < 2 ^ 32 := by
    intro l
    induction l with
    | nil => intro acc h; simpa using h
    | cons b bs ih =>
      intro acc h
      exact ih _ (crc32Byte_lt _ _ h)
  exact Nat.xor_lt_two_pow (this data 0xffffffff (by norm_num)) (by norm_num)

theorem hexFixed_length (k v : Nat) : (hexFixed k v).length = k := by
  induction k generalizing v with
  | zero => rfl
  | succ k ih => simp [hexFixed, ih]

theorem hexCharVal_hexDigitChar (d : Nat) (h : d < 16) :
    hexCharVal (hexDigitChar d) = d := by
  interval_cases d <;> decide

/-- The fixed-width hex rendering is faithful: reading the digits back
gives the rendered value (in particular the rendering is the value's
zero-padded base-16 representation). -/
theorem hexVal_hexFixed (k : Nat) : ∀ v : Nat, v < 16 ^ k → hexVal (hexFixed k v) = v := by
  induction k with
  | zero => intro v hv; interval_cases v; rfl
  | succ k ih =>
    intro v hv
    have hdiv : v >>> 4 < 16 ^ k := by
      rw [Nat.shiftRight_eq_div_pow]
      rw [pow_succ] at hv
      exact Nat.div_lt_of_lt_mul (by norm_num at hv ⊢; omega)
    unfold hexFixed hexVal
    rw [List.foldl_append]
    have hmod : v &&& 15 = v % 16 := by
      have := Nat.and_pow_two_sub_one_eq_mod v 4
      norm_num at this
      exact this
    simp only [List.foldl_cons, List.foldl_nil]
    rw [hexCharVal_hexDigitChar _ (by rw [hmod]; exact Nat.mod_lt _ (by norm_num))]
    have := ih (v >>> 4) hdiv
    unfold hexVal at this
    rw [this, hmod, Nat.shiftRight_eq_div_pow]
    have := Nat.div_add_mod v 16
    norm_num
    omega

theorem hexDigitChar_lower (d : Nat) (h : d < 16) :
    isHexLower (hexDigitChar d) = true := by
  interval_cases d <;> decide

theorem hexFixed_all_lower (k v : Nat) : (hexFixed k v).all isHexLower = true := by
  induction k generalizing v with
  | zero => rfl
  | succ k ih =>
    simp only [hexFixed, List.all_append, List.all_cons, List.all_nil, Bool.and_true,
      Bool.and_eq_true]
    refine ⟨ih _, hexDigitChar_lower _ ?_⟩
    have := Nat.and_le_right (n := v) (m := 15)
    omega

/-! Bit-level facts about `fs.FileMode` masks. -/

theorem testBit_of_and_pow_ne (m i : Nat) (h : m &&& 2 ^ i ≠ 0) :
    m.testBit i = true := by
  by_contra hb
  apply h
  rw [Nat.and_two_pow]
  simp only [Bool.not_eq_true] at hb
  simp [hb]

theorem fsModeTypeOf_idem (m : Nat) : fsModeTypeOf (fsModeTypeOf m) = fsModeTypeOf m := by
  unfold fsModeTypeOf
  rw [Nat.land_assoc]
  norm_num [fsModeType, fsModeDir, fsModeSymlink, fsModeNamedPipe, fsModeSocket,
    fsModeDevice, fsModeCharDevice, fsModeIrregular]

/-! Per-node facts about the walk callback. -/

theorem newEntry_statok (mode : Nat) (path : String) (ft : FileType) (size : Int)
    (ct : ReadRes) :
    newEntry mode path ft size false ct =
      .ok { path := path, etype := ft,
            size := if mode &&& ModeSize ≠ 0 then size else 0,
            checksum := if mode &&& ModeCRC32 ≠ 0 then
              (if ft ≠ .File then naStr else checksumResult ct) else "",
            mode := mode } := by
  unfold newEntry
  rw [if_neg (show ¬(mode &&& ModeSize ≠ 0 ∧ false = true) by simp)]

theorem renderNode_statok (cfg : WConfig) (rel : List Char) (typ : Nat) (size : Int)
    (ct : ReadRes) :
    renderNode cfg rel typ size false ct =
      .ok ((Entry.Format
              { path := String.mk rel, etype := filetypeFromDirEntry typ,
                size := if cfg.mode &&& ModeSize ≠ 0 then size else 0,
                checksum := if cfg.mode &&& ModeCRC32 ≠ 0 then
                  (if filetypeFromDirEntry typ ≠ .File then naStr else checksumResult ct) else "",
                mode := cfg.mode }) ++ String.mk rel ++ "\n") := by
  simp only [renderNode, newEntry_statok]

theorem nodeVisit_err_none (cfg : WConfig) (isRoot : Bool) (rel : List Char) (typ : Nat)
    (size : Int) (ct : ReadRes) :
    (nodeVisit cfg isRoot rel typ size false ct).2.1 = none := by
  unfold nodeVisit renderNode newEntry
  split
  · rfl
  · split
    · rfl
    · split
      · rfl
      · simp

theorem nodeVisit_line_depth (cfg : WConfig) (isRoot : Bool) (rel : List Char) (typ : Nat)
    (size : Int) (se : Bool) (ct : ReadRes) (l : String)
    (h : (nodeVisit cfg isRoot rel typ size se ct).1 = some l) :
    cfg.depth = 0 ∨ ((splitSlash rel).length : Int) ≤ cfg.depth := by
  unfold nodeVisit at h
  by_cases h1 : (isRoot = true ∧ cfg.showRoot = false)
  · rw [if_pos h1] at h
    simp at h
  · rw [if_neg h1] at h
    by_cases h2 : (cfg.depth ≠ 0 ∧ ((splitSlash rel).length : Int) > cfg.depth)
    · rw [if_pos h2] at h
      simp at h
    · push_neg at h2
      by_cases h0 : cfg.depth = 0
      · exact Or.inl h0
      · exact Or.inr (h2 h0)

theorem nodeVisit_line_shape (cfg : WConfig) (isRoot : Bool) (rel : List Char) (typ : Nat)
    (size : Int) (se : Bool) (ct : ReadRes) (l : String)
    (h : (nodeVisit cfg isRoot rel typ size se ct).1 = some l) :
    renderNode cfg rel typ size se ct = .ok l := by
  unfold nodeVisit at h
  by_cases h1 : (isRoot = true ∧ cfg.showRoot = false)
  · rw [if_pos h1] at h
    simp at h
  · rw [if_neg h1] at h
    by_cases h2 : (cfg.depth ≠ 0 ∧ ((splitSlash rel).length : Int) > cfg.depth)
    · rw [if_pos h2] at h
      simp at h
    · rw [if_neg h2] at h
      by_cases h3 : (cfg.ignorePats.any fun p => goMatchBool p (String.mk rel)) = true
      · rw [if_pos h3] at h
        simp at h
      · rw [if_neg h3] at h
        rcases hr : renderNode cfg rel typ size se ct with e | l'
        · rw [hr] at h
          simp at h
        · rw [hr] at h
          simp at h
          rw [h]

theorem nodeVisit_depth_skip (cfg : WConfig) (rel : List Char) (typ : Nat)
    (size : Int) (se : Bool) (ct : ReadRes) (h0 : cfg.depth ≠ 0)
    (hgt : ((splitSlash rel).length : Int) > cfg.depth) :
    nodeVisit cfg false rel typ size se ct = (none, none, false) := by
  unfold nodeVisit
  rw [if_neg (by simp), if_pos ⟨h0, hgt⟩]

theorem nodeVisit_depth0 (cfg : WConfig) (isRoot : Bool) (rel : List Char) (typ : Nat)
    (size : Int) (ct : ReadRes) (h0 : cfg.depth = 0) :
    (nodeVisit cfg isRoot rel typ size false ct).2 = (none, true) := by
  unfold nodeVisit
  by_cases h1 : (isRoot = true ∧ cfg.showRoot = false)
  · rw [if_pos h1]
  · rw [if_neg h1, if_neg (by rw [h0]; simp)]
    by_cases h3 : (cfg.ignorePats.any fun p => goMatchBool p (String.mk rel)) = true
    · rw [if_pos h3]
    · rw [if_neg h3, renderNode_statok]

/-! Walk-level facts, by structural induction on the tree. -/

theorem walkList_err_none (cfg : WConfig) :
    ∀ (t : FTree) (pIsRoot : Bool) (pRel : List Char), noStatErr t = true →
      (walkList cfg pIsRoot pRel t).2 = none := by
  intro t
  induction t with
  | leafEnd => intro pIsRoot pRel _; rfl
  | node nm typ size se ct children next ihc ihn =>
    intro pIsRoot pRel hns
    simp only [noStatErr, Bool.and_eq_true, Bool.not_eq_true'] at hns
    obtain ⟨⟨hse, hch⟩, hnx⟩ := hns
    subst hse
    simp only [walkList]
    rcases hv : nodeVisit cfg false (childRel pIsRoot pRel nm) typ size false ct
      with ⟨line, err, descend⟩
    have herr : err = none := by
      have := nodeVisit_err_none cfg false (childRel pIsRoot pRel nm) typ size ct
      rw [hv] at this
      exact this
    subst herr
    simp only [hv]
    by_cases hd : (descend = true ∧ typ &&& fsModeDir ≠ 0)
    · simp only [if_pos hd]
      rw [ihc false _ hch]
      simp only []
      rw [ihn pIsRoot pRel hnx]
    · simp only [if_neg hd]
      rw [ihn pIsRoot pRel hnx]

theorem walkRoot_err_none (cfg : WConfig) (t : FTree) (h : noStatErr t = true) :
    (walkRoot cfg t).2 = none := by
  cases t with
  | leafEnd => rfl
  | node nm typ size se ct children next =>
    simp only [noStatErr, Bool.and_eq_true, Bool.not_eq_true'] at h
    obtain ⟨⟨hse, hch⟩, _⟩ := h
    subst hse
    simp only [walkRoot]
    rcases hv : nodeVisit cfg true ['.'] typ size false ct with ⟨line, err, descend⟩
    have herr : err = none := by
      have := nodeVisit_err_none cfg true ['.'] typ size ct
      rw [hv] at this
      exact this
    subst herr
    simp only [hv]
    by_cases hd : (descend = true ∧ typ &&& fsModeDir ≠ 0)
    · simp only [if_pos hd]
      rw [walkList_err_none cfg children true ['.'] hch]
    · simp only [if_neg hd]


theorem walkList_mem_nv (cfg : WConfig) :
    ∀ (t : FTree) (pIsRoot : Bool) (pRel : List Char),
      ∀ v ∈ (walkList cfg pIsRoot pRel t).1,
        ∃ (isRoot : Bool) (typ : Nat) (size : Int) (se : Bool) (ct : ReadRes),
          v.line = (nodeVisit cfg isRoot v.rel typ size se ct).1 := by
  intro t
  induction t with
  | leafEnd => intro pIsRoot pRel v hv; simp [walkList] at hv
  | node nm typ size se ct children next ihc ihn =>
    intro pIsRoot pRel v hv
    simp only [walkList] at hv
    rcases hnv : nodeVisit cfg false (childRel pIsRoot pRel nm) typ size se ct
      with ⟨line, err, descend⟩
    rw [hnv] at hv
    have hhead : v = ⟨childRel pIsRoot pRel nm, line⟩ →
        ∃ (isRoot : Bool) (typ : Nat) (size : Int) (se : Bool) (ct : ReadRes),
          v.line = (nodeVisit cfg isRoot v.rel typ size se ct).1 := by
      intro he
      refine ⟨false, typ, size, se, ct, ?_⟩
      subst he
      rw [hnv]
    cases err with
    | some e =>
      simp only [List.mem_singleton] at hv
      exact hhead hv
    | none =>
      by_cases hd : (descend = true ∧ typ &&& fsModeDir ≠ 0)
      · rw [if_pos hd] at hv
        rcases hce : (walkList cfg false (childRel pIsRoot pRel nm) children).2
          with _ | e
        · rw [hce] at hv
          replace hv : v ∈ ({ rel := childRel pIsRoot pRel nm, line := line } : Visit) ::
              ((walkList cfg false (childRel pIsRoot pRel nm) children).1 ++
                (walkList cfg pIsRoot pRel next).1) := hv
          simp only [List.mem_cons, List.mem_append] at hv
          rcases hv with hv | hv | hv
          · exact hhead hv
          · exact ihc false _ v hv
          · exact ihn pIsRoot pRel v hv
        · rw [hce] at hv
          replace hv : v ∈ ({ rel := childRel pIsRoot pRel nm, line := line } : Visit) ::
              (walkList cfg false (childRel pIsRoot pRel nm) children).1 := hv
          simp only [List.mem_cons] at hv
          rcases hv with hv | hv
          · exact hhead hv
          · exact ihc false _ v hv
      · rw [if_neg hd] at hv
        replace hv : v ∈ ({ rel := childRel pIsRoot pRel nm, line := line } : Visit) ::
            (walkList cfg pIsRoot pRel next).1 := hv
        simp only [List.mem_cons] at hv
        rcases hv with hv | hv
        · exact hhead hv
        · exact ihn pIsRoot pRel v hv

theorem walkRoot_mem_nv (cfg : WConfig) (t : FTree) :
    ∀ v ∈ (walkRoot cfg t).1,
      ∃ (isRoot : Bool) (typ : Nat) (size : Int) (se : Bool) (ct : ReadRes),
        v.line = (nodeVisit cfg isRoot v.rel typ size se ct).1 := by
  cases t with
  | leafEnd => intro v hv; simp [walkRoot] at hv
  | node nm typ size se ct children next =>
    intro v hv
    simp only [walkRoot] at hv
    rcases hnv : nodeVisit cfg true ['.'] typ size se ct with ⟨line, err, descend⟩
    rw [hnv] at hv
    have hhead : v = ⟨['.'], line⟩ →
        ∃ (isRoot : Bool) (typ : Nat) (size : Int) (se : Bool) (ct : ReadRes),
          v.line = (nodeVisit cfg isRoot v.rel typ size se ct).1 := by
      intro he
      refine ⟨true, typ, size, se, ct, ?_⟩
      subst he
      rw [hnv]
    cases err with
    | some e =>
      simp only [List.mem_singleton] at hv
      exact hhead hv
    | none =>
      by_cases hd : (descend = true ∧ typ &&& fsModeDir ≠ 0)
      · rw [if_pos hd] at hv
        simp only [List.mem_cons] at hv
        rcases hv with hv | hv
        · exact hhead hv
        · exact walkList_mem_nv cfg children true ['.'] v hv
      · rw [if_neg hd] at hv
        simp only [List.mem_cons, List.not_mem_nil, or_false] at hv
        exact hhead hv

/-- Every rendered line of a walk respects the depth bound. -/
theorem walkRoot_line_depth (cfg : WConfig) (t : FTree) (hdep : 1 ≤ cfg.depth) :
    ∀ v ∈ (walkRoot cfg t).1, v.line.isSome = true →
      ((splitSlash v.rel).length : Int) ≤ cfg.depth := by
  intro v hv hsome
  obtain ⟨isRoot, typ, size, se, ct, hl⟩ := walkRoot_mem_nv cfg t v hv
  rw [hl] at hsome
  obtain ⟨l, hls⟩ := Option.isSome_iff_exists.mp hsome
  rcases nodeVisit_line_depth cfg isRoot v.rel typ size se ct l hls with h0 | h
  · omega
  · exact h

/-- Every rendered line of a walk is the rendering of its own node. -/
theorem walkRoot_line_shape (cfg : WConfig) (t : FTree) :
    ∀ v ∈ (walkRoot cfg t).1, ∀ l, v.line = some l →
      ∃ typ size se ct, renderNode cfg v.rel typ size se ct = .ok l := by
  intro v hv l hl
  obtain ⟨isRoot, typ, size, se, ct, hnv⟩ := walkRoot_mem_nv cfg t v hv
  refine ⟨typ, size, se, ct, ?_⟩
  exact nodeVisit_line_shape cfg isRoot v.rel typ size se ct l (by rw [← hnv]; exact hl)

/-- With an unlimited depth (and no stat failures), the walk visits
every node of the tree. -/
theorem walkList_rels_depth0 (cfg : WConfig) (h0 : cfg.depth = 0) :
    ∀ (t : FTree) (pIsRoot : Bool) (pRel : List Char), noStatErr t = true →
      (walkList cfg pIsRoot pRel t).1.map Visit.rel = allRelsList pIsRoot pRel t := by
  intro t
  induction t with
  | leafEnd => intro pIsRoot pRel _; rfl
  | node nm typ size se ct children next ihc ihn =>
    intro pIsRoot pRel hns
    simp only [noStatErr, Bool.and_eq_true, Bool.not_eq_true'] at hns
    obtain ⟨⟨hse, hch⟩, hnx⟩ := hns
    subst hse
    simp only [walkList, allRelsList]
    rcases hnv : nodeVisit cfg false (childRel pIsRoot pRel nm) typ size false ct
      with ⟨line, err, descend⟩
    have h2 := nodeVisit_depth0 cfg false (childRel pIsRoot pRel nm) typ size ct h0
    rw [hnv] at h2
    have herr : err = none := congrArg Prod.fst h2
    have hdes : descend = true := congrArg Prod.snd h2
    subst herr
    subst hdes
    by_cases hdir : typ &&& fsModeDir ≠ 0
    · rw [if_pos ⟨rfl, hdir⟩, if_pos hdir]
      rw [walkList_err_none cfg children false (childRel pIsRoot pRel nm) hch]
      show (({ rel := childRel pIsRoot pRel nm, line := line } : Visit) ::
          ((walkList cfg false (childRel pIsRoot pRel nm) children).1 ++
            (walkList cfg pIsRoot pRel next).1)).map Visit.rel = _
      simp only [List.map_cons, List.map_append, List.cons_append]
      rw [ihc false _ hch, ihn pIsRoot pRel hnx]
    · rw [if_neg (by simp [hdir]), if_neg hdir]
      show (({ rel := childRel pIsRoot pRel nm, line := line } : Visit) ::
          (walkList cfg pIsRoot pRel next).1).map Visit.rel = _
      simp only [List.map_cons, List.nil_append]
      rw [ihn pIsRoot pRel hnx]
      rfl

theorem walkRoot_rels_depth0 (cfg : WConfig) (t : FTree) (h0 : cfg.depth = 0)
    (hns : noStatErr t = true) :
    (walkRoot cfg t).1.map Visit.rel = allRelsRoot t := by
  cases t with
  | leafEnd => rfl
  | node nm typ size se ct children next =>
    simp only [noStatErr, Bool.and_eq_true, Bool.not_eq_true'] at hns
    obtain ⟨⟨hse, hch⟩, _⟩ := hns
    subst hse
    simp only [walkRoot, allRelsRoot]
    rcases hnv : nodeVisit cfg true ['.'] typ size false ct with ⟨line, err, descend⟩
    have h2 := nodeVisit_depth0 cfg true ['.'] typ size ct h0
    rw [hnv] at h2
    have herr : err = none := congrArg Prod.fst h2
    have hdes : descend = true := congrArg Prod.snd h2
    subst herr
    subst hdes
    by_cases hdir : typ &&& fsModeDir ≠ 0
    · rw [if_pos ⟨rfl, hdir⟩, if_pos hdir]
      show (({ rel := ['.'], line := line } : Visit) ::
          (walkList cfg true ['.'] children).1).map Visit.rel = _
      simp only [List.map_cons]
      rw [walkList_rels_depth0 cfg h0 children true ['.'] hch]
    · rw [if_neg (by simp [hdir]), if_neg hdir]
      show (({ rel := ['.'], line := line } : Visit) :: ([] : List Visit)).map Visit.rel = _
      simp

/-- A directory whose relative path exceeds a finite depth limit is
pruned: its subtree contributes nothing to the walk; the walk resumes
at the following sibling. -/
theorem walkList_prune (cfg : WConfig) (pIsRoot : Bool) (pRel nm : List Char)
    (typ : Nat) (size : Int) (se : Bool) (ct : ReadRes) (children next : FTree)
    (h0 : cfg.depth ≠ 0)
    (hgt : ((splitSlash (childRel pIsRoot pRel nm)).length : Int) > cfg.depth) :
    walkList cfg pIsRoot pRel (.node nm typ size se ct children next) =
      (⟨childRel pIsRoot pRel nm, none⟩ :: (walkList cfg pIsRoot pRel next).1,
        (walkList cfg pIsRoot pRel next).2) := by
  simp only [walkList]
  rw [nodeVisit_depth_skip cfg (childRel pIsRoot pRel nm) typ size se ct h0 hgt]
  rfl

/-! Characterization of the `shouldKeepPath` loop. -/

theorem shouldKeepPathLoop_eq (path : String) :
    ∀ (ps : List GlobPattern) (keep hasM : Bool),
      shouldKeepPathLoop path ps keep hasM =
        (!(hasIgnoreMatch path ps) &&
          (!(hasM || hasMatchRole ps) || (keep || hasMatchMatch path ps))) := by
  intro ps
  induction ps with
  | nil =>
    intro keep hasM
    simp [shouldKeepPathLoop, hasIgnoreMatch, hasMatchRole, hasMatchMatch]
  | cons p ps ih =>
    intro keep hasM
    cases hmoi : p.moi <;> cases hm : goMatchBool p.pat path <;>
      simp only [shouldKeepPathLoop, hasIgnoreMatch, hasMatchRole, hasMatchMatch,
        List.any_cons, hmoi, hm, moiIgnore, moiMatch, ih,
        Bool.false_and, Bool.true_and, Bool.and_false,
        Bool.and_true, Bool.false_or, Bool.or_false, Bool.true_or, Bool.or_true,
        Bool.not_true, Bool.not_false, if_true, if_false, ite_true, ite_false] <;>
      simp_all

/-! Characterization of option-resolution failure. -/

theorem applyOpt_err (o : Opt) (cfg : Config) :
    isErrE (applyOpt o cfg) = optFailsActual o := by
  cases o with
  | printMode m => rfl
  | typeOpt t =>
    simp only [applyOpt, optFailsActual]
    by_cases ht : t = ""
    · simp [ht, isErrE]
    · rw [if_neg ht]
      rcases hl : typeApplyLoop t.toList 0 with e | v <;>
        simp [isErrE, ht, hl, Except.isOk, Except.toBool]
  | includeRoot b => rfl
  | ignoreOpt p =>
    simp only [applyOpt, optFailsActual]
    by_cases hp : patternBad p = true
    · simp [hp, isErrE]
    · simp only [Bool.not_eq_true] at hp
      simp [hp, isErrE]
  | matchOpt p =>
    simp only [applyOpt, optFailsActual]
    by_cases hp : patternBad p = true
    · simp [hp, isErrE]
    · simp only [Bool.not_eq_true] at hp
      simp [hp, isErrE]
  | depthOpt d =>
    simp only [applyOpt, optFailsActual]
    by_cases hd : d < 0
    · simp [hd, isErrE]
    · simp [hd, isErrE]

theorem resolveConfig_err (opts : List Opt) :
    ∀ cfg : Config, isErrE (resolveConfig opts cfg) = opts.any optFailsActual := by
  induction opts with
  | nil => intro cfg; rfl
  | cons o os ih =>
    intro cfg
    simp only [resolveConfig, List.any_cons]
    rcases ha : applyOpt o cfg with e | cfg'
    · have := applyOpt_err o cfg
      rw [ha] at this
      simp [isErrE, ← this]
    · have hofa : optFailsActual o = false := by
        rw [← applyOpt_err o cfg, ha]
        rfl
      rw [hofa]
      simp only [Bool.false_or]
      show isErrE (resolveConfig os cfg') = os.any optFailsActual
      exact ih cfg' 

theorem applyWOpt_err (o : WOpt) (cfg : WConfig) :
    isErrE (applyWOpt o cfg) =
      (match o with
        | .ignoreOpt p => patternBad p
        | .depthOpt d => decide (d < 0)
        | _ => false) := by
  cases o with
  | printMode m => rfl
  | includeRoot b => rfl
  | ignoreOpt p =>
    simp only [applyWOpt]
    by_cases hp : patternBad p = true
    · simp [hp, isErrE]
    · simp only [Bool.not_eq_true] at hp
      simp [hp, isErrE]
  | depthOpt d =>
    simp only [applyWOpt]
    by_cases hd : d < 0
    · simp [hd, isErrE]
    · simp [hd, isErrE]

/-! Classifier bit lemmas. -/

theorem fsModeType_testBit27 : Nat.testBit fsModeType 27 = true := by decide

theorem fsModeDir_testBit27 : Nat.testBit fsModeDir 27 = false := by decide

/-- Inversion of a successful per-node rendering: the printed line is
the formatted entry followed by the relative path and a newline. -/
theorem renderNode_ok_inv (cfg : WConfig) (rel : List Char) (typ : Nat) (size : Int)
    (se : Bool) (ct : ReadRes) (l : String)
    (h : renderNode cfg rel typ size se ct = .ok l) :
    ∃ ent, newEntry cfg.mode (String.mk rel) (filetypeFromDirEntry typ) size se ct = .ok ent ∧
      l = ent.Format ++ String.mk rel ++ "\n" := by
  simp only [renderNode] at h
  rcases hne : newEntry cfg.mode (String.mk rel) (filetypeFromDirEntry typ) size se ct
    with e | ent
  · rw [hne] at h
    simp at h
  · rw [hne] at h
    simp only [Except.ok.injEq] at h
    exact ⟨ent, rfl, h.symm⟩

/-- The first node visited by a walk from the root has relative path `"."`. -/
theorem walkRoot_head (cfg : WConfig) (nm : List Char) (typ : Nat) (size : Int) (se : Bool)
    (ct : ReadRes) (children next : FTree) :
    ((walkRoot cfg (.node nm typ size se ct children next)).1.head?).map Visit.rel =
      some ['.'] := by
  simp only [walkRoot]
  rcases hnv : nodeVisit cfg true ['.'] typ size se ct with ⟨line, err, descend⟩
  cases err <;> simp

/-- `formatSize` renders an all-space field for non-regular entries. -/
theorem formatSize_nonfile (ft : FileType) (size : Int) (h : ft ≠ .File) :
    formatSize ft size = String.mk (List.replicate (sizeDigits + 1) ' ') := by
  unfold formatSize
  rw [if_pos h]
  rfl

/-! ## The claims -/

/-- Claim C1: for every relative path and pattern list, the keep
decision of `shouldKeepPath` follows the precedence: a matching
ignore-role pattern excludes the path unconditionally; otherwise, if
match-role patterns exist, the path is kept exactly when one of them
matches; otherwise the path is kept — and an empty pattern list keeps
every path. -/
theorem claim_C1_pattern_precedence (path : String) (ps : List GlobPattern) :
    (hasIgnoreMatch path ps = true → shouldKeepPath path ps = false) ∧
    (hasIgnoreMatch path ps = false → hasMatchRole ps = true →
      shouldKeepPath path ps = hasMatchMatch path ps) ∧
    (hasIgnoreMatch path ps = false → hasMatchRole ps = false →
      shouldKeepPath path ps = true) ∧
    shouldKeepPath path [] = true := by
  have hmain := shouldKeepPathLoop_eq path ps false false
  unfold shouldKeepPath
  refine ⟨?_, ?_, ?_, rfl⟩
  · intro h
    rw [hmain, h]
    rfl
  · intro h1 h2
    rw [hmain, h1, h2]
    simp
  · intro h1 h2
    rw [hmain, h1, h2]
    simp

/-- Witness for C1 at a concrete path and pattern list: the ignore
pattern wins over the match pattern. -/
theorem claim_C1_witness :
    hasIgnoreMatch "A/file1" c1ps = true ∧ shouldKeepPath "A/file1" c1ps = false :=
  ⟨by decide, (claim_C1_pattern_precedence "A/file1" c1ps).1 (by decide)⟩

/-- Claim C2: with a finite depth limit `n ≥ 1`, every rendered
relative path has at most `n` slash-separated segments; a node whose
relative path exceeds the limit is skipped and, when it is a
directory, its whole subtree is pruned (the walk resumes at the next
sibling); with depth `0` no node is skipped for depth — the walk
visits every node of the tree. -/
theorem claim_C2_depth_pruning (cfg : WConfig) (t : FTree) :
    (1 ≤ cfg.depth → ∀ v ∈ (walkRoot cfg t).1, v.line.isSome = true →
      ((splitSlash v.rel).length : Int) ≤ cfg.depth) ∧
    (cfg.depth ≠ 0 → ∀ (pIsRoot : Bool) (pRel nm : List Char) (typ : Nat) (size : Int)
      (se : Bool) (ct : ReadRes) (children next : FTree),
      typ &&& fsModeDir ≠ 0 →
      ((splitSlash (childRel pIsRoot pRel nm)).length : Int) > cfg.depth →
      walkList cfg pIsRoot pRel (.node nm typ size se ct children next) =
        (⟨childRel pIsRoot pRel nm, none⟩ :: (walkList cfg pIsRoot pRel next).1,
          (walkList cfg pIsRoot pRel next).2)) ∧
    (cfg.depth = 0 → noStatErr t = true →
      (walkRoot cfg t).1.map Visit.rel = allRelsRoot t) := by
  refine ⟨walkRoot_line_depth cfg t, ?_, walkRoot_rels_depth0 cfg t⟩
  intro h0 pIsRoot pRel nm typ size se ct children next _ hgt
  exact walkList_prune cfg pIsRoot pRel nm typ size se ct children next h0 hgt

/-- Witness for C2: with depth 1, the directory `A/B` (2 segments) is
pruned — it is visited without a line and its subtree is skipped. -/
theorem claim_C2_witness :
    walkList c2cfg false ['A']
        (.node ['B'] fsModeDir 0 false .openFail .leafEnd .leafEnd) =
      ([⟨['A', '/', 'B'], none⟩], none) := by
  have h := (claim_C2_depth_pruning c2cfg c2tree).2.1 (by decide) false ['A'] ['B']
    fsModeDir 0 false .openFail .leafEnd .leafEnd (by decide) (by decide)
  rw [h]
  rfl

/-- Claim C3: a failure of the checksum's open step or read step
yields the fixed-width "not applicable" sentinel instead of an error,
and (with sizes obtainable) the traversal never aborts, whatever the
content read outcomes are. -/
theorem claim_C3_checksum_failure (fsys : ChecksumFS) (path : String) (cfg : WConfig)
    (t : FTree) :
    ((fsys path = .openFail ∨ fsys path = .readFail) → checksum fsys path = checksumNA) ∧
    (noStatErr t = true → (walkRoot cfg t).2 = none) := by
  constructor
  · intro h
    unfold checksum
    rcases h with h | h <;> rw [h] <;> rfl
  · exact walkRoot_err_none cfg t

/-- Witness for C3: a file deleted between listing and checksum
computation yields the sentinel, and a tree whose file content cannot
be read is still walked to completion without error. -/
theorem claim_C3_witness :
    checksum c3fs "A/file1" = checksumNA ∧ (walkRoot defaultWCfg c3tree).2 = none :=
  ⟨(claim_C3_checksum_failure c3fs "A/file1" defaultWCfg c3tree).1 (Or.inl rfl),
   (claim_C3_checksum_failure c3fs "A/file1" defaultWCfg c3tree).2 (by decide)⟩

/-- Claim C4: the fields of a formatted entry appear in the fixed
order kind, size, checksum, separated by exactly one space with a
single trailing space; every rendered line of a walk is the formatted
fields of an entry built for the node, followed directly by the
relative path and a newline; and the root is the first node visited,
with relative path `"."`. -/
theorem claim_C4_line_format (e : Entry) (cfg : WConfig) (t : FTree) (nm : List Char)
    (typ : Nat) (size : Int) (se : Bool) (ct : ReadRes) (children next : FTree) :
    (e.Format = joinFields (fieldList e.mode e.etype e.size e.checksum)) ∧
    (∀ v ∈ (walkRoot cfg t).1, ∀ l, v.line = some l →
      ∃ typ size se ct ent,
        newEntry cfg.mode (String.mk v.rel) (filetypeFromDirEntry typ) size se ct = .ok ent ∧
        l = ent.Format ++ String.mk v.rel ++ "\n") ∧
    ((walkRoot cfg (.node nm typ size se ct children next)).1.head?).map Visit.rel =
      some ['.'] := by
  refine ⟨Format_eq_joinFields e, ?_, walkRoot_head cfg nm typ size se ct children next⟩
  intro v hv l hl
  obtain ⟨typ', size', se', ct', hr⟩ := walkRoot_line_shape cfg t v hv l hl
  obtain ⟨ent, hne, hline⟩ := renderNode_ok_inv cfg v.rel typ' size' se' ct' l hr
  exact ⟨typ', size', se', ct', ent, hne, hline⟩

/-- Witness for C4: the format of a concrete regular-file entry, and
the root visit of a concrete tree. -/
theorem claim_C4_witness :
    Entry.Format c4e = joinFields (fieldList c4e.mode c4e.etype c4e.size c4e.checksum) ∧
    Entry.Format c4e = "f 13b        crc=0451ac5e " ∧
    ((walkRoot defaultWCfg c2tree).1.head?).map Visit.rel = some ['.'] :=
  ⟨(claim_C4_line_format c4e defaultWCfg c2tree ['.'] fsModeDir 0 false .openFail
      .leafEnd .leafEnd).1,
   by decide,
   (claim_C4_line_format c4e defaultWCfg c2tree ['.'] fsModeDir 0 false .openFail
      .leafEnd .leafEnd).2.2⟩

/-- Counterexample for C5: the claim says the size field is
*left*-padded (spaces before the digits); the code left-justifies,
padding on the right: `formatSize` of a 13-byte file is
`"13b       "`, not `"       13b"`. -/
theorem claim_C5_counterexample :
    formatSize .File 13 = "13b       " ∧
    formatSize .File 13 ≠ padLeftSpec (sizeDigits + 1) (goFormatInt 13 ++ "b") ∧
    padLeftSpec (sizeDigits + 1) (goFormatInt 13 ++ "b") = "       13b" := by
  decide

/-- Claim C5 (amended: the size field is left-justified, i.e. padded
with spaces on the *right*, to the fixed minimum width): for a regular
file the field is the decimal byte count suffixed with `b`, followed
by space padding up to `sizeDigits + 1` columns when narrower, never
truncated when wider (the full numeral is always a prefix of the
field, whose width is the maximum of both); for any other kind the
field is all spaces of that same fixed width. -/
theorem claim_C5_size_formatting (size : Int) (ft : FileType) :
    (ft ≠ .File → formatSize ft size = String.mk (List.replicate (sizeDigits + 1) ' ')) ∧
    (∃ pad : String, formatSize .File size = (goFormatInt size ++ "b") ++ pad ∧
      pad.data.all (· = ' ') = true) ∧
    (formatSize .File size).length = max (goFormatInt size ++ "b").length (sizeDigits + 1) := by
  refine ⟨formatSize_nonfile ft size, ?_, ?_⟩
  · unfold formatSize
    rw [if_neg (by simp)]
    dsimp only
    split
    · exact ⟨"", (String.append_empty _).symm, rfl⟩
    · next hle =>
        unfold padRightGo
        rw [if_neg (by omega)]
        refine ⟨_, rfl, ?_⟩
        simp [List.all_eq_true, List.mem_replicate]
  · unfold formatSize
    rw [if_neg (by simp)]
    dsimp only
    split
    · next hgt => omega
    · next hle =>
        rw [padRightGo_length]

/-- Witness for C5 (amended): concrete sizes on both sides of the
padding threshold, and a non-file blank field. -/
theorem claim_C5_witness :
    formatSize .Dir 13 = String.mk (List.replicate (sizeDigits + 1) ' ') ∧
    (∃ pad : String, formatSize .File 13 = (goFormatInt 13 ++ "b") ++ pad ∧
      pad.data.all (· = ' ') = true) ∧
    (formatSize .File 123456789012 ).length =
      max (goFormatInt 123456789012 ++ "b").length (sizeDigits + 1) :=
  ⟨(claim_C5_size_formatting 13 .Dir).1 (by decide),
   (claim_C5_size_formatting 13 .File).2.1,
   (claim_C5_size_formatting 123456789012 .File).2.2⟩

/-- Claim C6: the classifier maps a directory entry's unresolved
(`lstat`-style) type bits to exactly one kind: regular files to
`File`, a raw mode whose type bits are exactly `fs.ModeDir` to `Dir`,
and everything else — in particular any entry carrying the symlink
bit, such as a symlink pointing at a directory — to `Other`. -/
theorem claim_C6_classifier (m : Nat) :
    (m &&& fsModeType = 0 → filetypeFromDirEntry (fsModeTypeOf m) = .File) ∧
    (fsModeTypeOf m = fsModeDir → filetypeFromDirEntry (fsModeTypeOf m) = .Dir) ∧
    (m &&& fsModeType ≠ 0 → fsModeTypeOf m ≠ fsModeDir →
      filetypeFromDirEntry (fsModeTypeOf m) = .Other) ∧
    (m &&& fsModeSymlink ≠ 0 → filetypeFromDirEntry (fsModeTypeOf m) = .Other) := by
  have hidem := fsModeTypeOf_idem m
  have hreg : ∀ x : Nat, fsModeIsRegular x = true ↔ x &&& fsModeType = 0 := by
    intro x
    simp [fsModeIsRegular]
  refine ⟨?_, ?_, ?_, ?_⟩
  · intro h
    unfold filetypeFromDirEntry
    rw [if_pos]
    rw [hreg]
    show fsModeTypeOf (fsModeTypeOf m) = 0
    rw [hidem]
    exact h
  · intro h
    rw [h]
    decide
  · intro h1 h2
    unfold filetypeFromDirEntry
    rw [if_neg, if_neg]
    · show ¬fsModeTypeOf (fsModeTypeOf m) = fsModeDir
      rw [hidem]
      exact h2
    · rw [hreg]
      show ¬fsModeTypeOf (fsModeTypeOf m) = 0
      rw [hidem]
      exact h1
  · intro h
    have htb : m.testBit 27 = true := by
      apply testBit_of_and_pow_ne m 27
      simpa [fsModeSymlink] using h
    have htT : (fsModeTypeOf m).testBit 27 = true := by
      unfold fsModeTypeOf
      rw [Nat.testBit_land, htb, fsModeType_testBit27]
      rfl
    have h1 : m &&& fsModeType ≠ 0 := by
      intro h0
      have h0' : fsModeTypeOf m = 0 := h0
      rw [h0'] at htT
      simp [Nat.zero_testBit] at htT
    have h2 : fsModeTypeOf m ≠ fsModeDir := by
      intro h0
      rw [h0, fsModeDir_testBit27] at htT
      exact Bool.false_ne_true htT
    unfold filetypeFromDirEntry
    rw [if_neg, if_neg]
    · show ¬fsModeTypeOf (fsModeTypeOf m) = fsModeDir
      rw [hidem]
      exact h2
    · rw [hreg]
      show ¬fsModeTypeOf (fsModeTypeOf m) = 0
      rw [hidem]
      exact h1

/-- Witness for C6: a symlink-to-directory (symlink and dir bits both
set) classifies as `Other`; a zero mode as `File`; a pure directory
mode as `Dir`. -/
theorem claim_C6_witness :
    filetypeFromDirEntry (fsModeTypeOf (fsModeSymlink ||| fsModeDir)) = .Other ∧
    filetypeFromDirEntry (fsModeTypeOf 0) = .File ∧
    filetypeFromDirEntry (fsModeTypeOf fsModeDir) = .Dir :=
  ⟨(claim_C6_classifier (fsModeSymlink ||| fsModeDir)).2.2.2 (by decide),
   (claim_C6_classifier 0).1 (by decide),
   (claim_C6_classifier fsModeDir).2.1 (by decide)⟩

/-- Counterexample for C7: the claim enumerates the failing options as
an empty type filter, a malformed glob, or a negative depth; but a
type filter with an unrecognized character — none of those — also
fails configuration. -/
theorem claim_C7_counterexample :
    ([Opt.typeOpt "x"].any optFailsClaim = false) ∧
    isErrE (resolveConfig [Opt.typeOpt "x"] defaultCfg) = true := by
  decide

/-- Claim C7 (amended: a type-filter string containing a character
other than `f`, `d`, `?` is a fourth failing case): configuration
resolution fails exactly when the option list contains an empty or
invalid type filter, a glob rejected by the validation probe, or a
negative depth; and when the walker's options fail to resolve, the
whole call fails before any node is visited and before any output is
produced. -/
theorem claim_C7_option_validation (opts : List Opt) (t : FTree) (wopts : List WOpt) :
    (isErrE (resolveConfig opts defaultCfg) = opts.any optFailsActual) ∧
    (isErrE (resolveWConfig wopts defaultWCfg) = true →
      (Write t wopts).1 = [] ∧ (Write t wopts).2.1 = "" ∧ (Write t wopts).2.2 ≠ none) := by
  refine ⟨resolveConfig_err opts defaultCfg, ?_⟩
  intro herr
  unfold Write
  rcases hw : resolveWConfig wopts defaultWCfg with e | cfg
  · exact ⟨rfl, rfl, by simp⟩
  · rw [hw] at herr
    simp [isErrE] at herr

/-- Witness for C7 (amended): a valid option list resolves, a
malformed glob fails, and a negative depth aborts `Write` with no
visits and no output. -/
theorem claim_C7_witness :
    isErrE (resolveConfig [Opt.ignoreOpt "*/file1", Opt.depthOpt 2] defaultCfg) = false ∧
    isErrE (resolveConfig [Opt.ignoreOpt "a/b["] defaultCfg) = true ∧
    ((Write c7tree [WOpt.depthOpt (-1)]).1 = [] ∧
      (Write c7tree [WOpt.depthOpt (-1)]).2.1 = "" ∧
      (Write c7tree [WOpt.depthOpt (-1)]).2.2 ≠ none) :=
  ⟨((claim_C7_option_validation [Opt.ignoreOpt "*/file1", Opt.depthOpt 2] c7tree []).1).trans
      (by decide),
   ((claim_C7_option_validation [Opt.ignoreOpt "a/b["] c7tree []).1).trans (by decide),
   (claim_C7_option_validation [] c7tree [WOpt.depthOpt (-1)]).2 (by decide)⟩

/-- Counterexample for C8: the claim says the "not applicable"
sentinel is *left*-padded to the 8-character checksum width; the code
left-justifies it (spaces on the right): `checksumNA` is
`"n/a     "`, not `"     n/a"`. -/
theorem claim_C8_counterexample :
    checksumNA = "n/a     " ∧
    checksumNA ≠ padLeftSpec crcChars naStr ∧
    padLeftSpec crcChars naStr = "     n/a" := by
  decide

/-- Claim C8 (amended: the sentinel is left-justified — padded on the
*right* with spaces — to the fixed 8-character width): a readable
regular file's checksum is the CRC-32 of its full content rendered as
exactly 8 lowercase hexadecimal digits (zero-padded: reading the
digits back yields the 32-bit value); failures yield the sentinel; and
both renderings have the same fixed width `crcChars = 8`. -/
theorem claim_C8_checksum_format (fsys : ChecksumFS) (path : String) (data : List Nat) :
    (fsys path = .ok data →
      checksum fsys path = String.mk (hexFixed crcChars (crc32 data)) ∧
      (checksum fsys path).length = crcChars ∧
      (checksum fsys path).data.all isHexLower = true ∧
      hexVal (hexFixed crcChars (crc32 data)) = crc32 data) ∧
    ((fsys path = .openFail ∨ fsys path = .readFail) → checksum fsys path = checksumNA) ∧
    checksumNA.length = crcChars ∧
    checksumNA = naStr ++ String.mk (List.replicate (crcChars - naStr.length) ' ') := by
  refine ⟨?_, ?_, by decide, by decide⟩
  · intro h
    unfold checksum checksumResult
    rw [h]
    refine ⟨rfl, ?_, ?_, ?_⟩
    · rw [String.length_mk, hexFixed_length]
    · exact hexFixed_all_lower crcChars (crc32 data)
    · apply hexVal_hexFixed
      have := crc32_lt data
      norm_num [crcChars]
      omega
  · intro h
    unfold checksum checksumResult
    rcases h with h | h <;> rw [h]

set_option maxRecDepth 8000 in
/-- Witness for C8 (amended): the checksum of the 13-byte file
`"dummy content"` is the fixed-width string `"0451ac5e"`, and an
unreadable path yields the sentinel. -/
theorem claim_C8_witness :
    checksum c8fs "A/file1" = "0451ac5e" ∧ checksum c8fs "gone" = checksumNA :=
  ⟨((claim_C8_checksum_format c8fs "A/file1"
      ("dummy content".data.map Char.toNat)).1 (by decide)).1.trans (by decide),
   (claim_C8_checksum_format c8fs "gone" []).2.1 (Or.inl (by decide))⟩

/-- Claim C9: for a non-regular-file entry, under every print mode,
the rendered size field is the all-space sentinel and the rendered
checksum field is the "not applicable" sentinel, independently of the
`size` and `checksum` values stored in the entry. -/
theorem claim_C9_nonregular_sentinels (m : Nat) (ft : FileType) (sz sz' : Int)
    (ck ck' : String) (hft : ft ≠ .File) :
    Entry.Format { path := "", etype := ft, size := sz, checksum := ck, mode := m } =
      Entry.Format { path := "", etype := ft, size := sz', checksum := ck', mode := m } ∧
    Entry.Format { path := "", etype := ft, size := sz, checksum := ck, mode := m } =
      joinFields ((if m &&& ModeType ≠ 0 then [String.singleton ft.char] else []) ++
        (if m &&& ModeSize ≠ 0 then [String.mk (List.replicate (sizeDigits + 1) ' ')] else []) ++
        (if m &&& ModeCRC32 ≠ 0 then ["crc=" ++ checksumNA] else [])) := by
  have key : ∀ (s : Int) (c : String),
      Entry.Format { path := "", etype := ft, size := s, checksum := c, mode := m } =
        joinFields ((if m &&& ModeType ≠ 0 then [String.singleton ft.char] else []) ++
          (if m &&& ModeSize ≠ 0 then
            [String.mk (List.replicate (sizeDigits + 1) ' ')] else []) ++
          (if m &&& ModeCRC32 ≠ 0 then ["crc=" ++ checksumNA] else [])) := by
    intro s c
    rw [Format_eq_joinFields]
    unfold fieldList
    rw [formatSize_nonfile ft s hft, if_pos hft]
  exact ⟨(key sz ck).trans (key sz' ck').symm, key sz ck⟩

/-- Witness for C9: a symlink-like entry with junk stored size and
checksum renders identically to one with zeroed attributes, and shows
both sentinels. -/
theorem claim_C9_witness :
    Entry.Format
        { path := "", etype := .Other, size := 999, checksum := "garbage",
          mode := ModeAll } =
      Entry.Format
        { path := "", etype := .Other, size := 0, checksum := "",
          mode := ModeAll } ∧
    Entry.Format
        { path := "", etype := .Other, size := 999, checksum := "garbage",
          mode := ModeAll } = "?            crc=n/a      " :=
  ⟨(claim_C9_nonregular_sentinels ModeAll .Other 999 0 "garbage" "" (by decide)).1,
   by decide⟩

/-- Claim C10: whenever `Sprint` reports an error, its string result
is the empty string — a failed call never returns a partially rendered
listing. -/
theorem claim_C10_sprint_empty_on_error (root : FTree) (opts : List WOpt)
    (h : (Sprint root opts).2 ≠ none) : (Sprint root opts).1 = "" := by
  unfold Sprint at h ⊢
  rcases hw : Write root opts with ⟨vs, out, err⟩
  rw [hw] at h
  cases err with
  | some e => rfl
  | none => exact absurd rfl h

/-- Witness for C10: a walk that fails midway has already produced
partial output inside `Write`, yet `Sprint` returns the empty
string. -/
theorem claim_C10_witness :
    (Write c10tree []).2.1 ≠ "" ∧ (Sprint c10tree []).2 ≠ none ∧
      (Sprint c10tree []).1 = "" :=
  ⟨by decide, by decide, claim_C10_sprint_empty_on_error c10tree [] (by decide)⟩

end Dirtree
